import Mathlib

/-!
Shallow embedding of the checkout-and-fulfillment core of the
`django-khmer25` repository (`products/models.py`, `products/views.py`,
`products/admin.py`, `products/serializers.py`).

Modelling conventions:
* Django `DecimalField` values are modelled as exact rationals (`ℚ`);
  the source computes with Python `Decimal` and never rounds.
* `Product.stock` is a `PositiveIntegerField`; it is modelled as `Int`
  so that the non-negativity invariant is a statement, not a typing
  triviality.  Quantities (`CartItem.qty`, `OrderItem.qty`) are `Nat`.
* A `Cart` is one-to-one with its user (`Cart.user` is a
  `OneToOneField`, created lazily by `get_or_create_cart`), so cart
  items are keyed directly by the owner's user id (`cartId = user id`).
* Auto-increment primary keys are modelled by per-table counters.
* Row sets are lists; the list order models the order in which the
  database returns rows of an unordered queryset.
* `random.choices` draws inside `_gen_code` are supplied as an explicit
  list of candidate tokens; an exhausted list models the unbounded
  retry loop failing to terminate.
* A Django `save()` call that raises makes the enclosing
  `transaction.atomic` block roll back; fallible saves in the admin
  verification actions are modelled by an explicit set of order ids
  whose status write raises.
-/

/-- `products.models.Product` (the fields the core reads/writes). -/
structure Product where
  id : Nat
  name : String
  price : ℚ
  discount_percent : Nat
  stock : Int
  is_in_stock : Bool
  is_active : Bool
deriving Repr, DecidableEq

/-- `Product.final_price`: `price - price * discount_percent / 100` when
`discount_percent > 0`, else `price` (models.py lines 51-60). -/
def Product.final_price (p : Product) : ℚ :=
  if 0 < p.discount_percent then
    p.price - (p.price * (p.discount_percent : ℚ)) / 100
  else
    p.price

/-- `products.models.CartItem`; `cartId` is the owning user's id. -/
structure CartItem where
  id : Nat
  cartId : Nat
  productId : Nat
  qty : Nat
deriving Repr, DecidableEq

/-- `products.models.Order.Status` choices. -/
inductive OrderStatus
  | PENDING_PAYMENT
  | PAID
  | PROCESSING
  | SHIPPED
  | DELIVERED
  | REJECTED
  | CANCELED
deriving Repr, DecidableEq

/-- `products.models.Order`. -/
structure Order where
  id : Nat
  userId : Nat
  phone : String
  address : String
  note : String
  total : ℚ
  order_code : String
  status : OrderStatus
  created_at : Nat
deriving Repr, DecidableEq

/-- `products.models.OrderItem` (snapshot of name/price at order time). -/
structure OrderItem where
  id : Nat
  orderId : Nat
  productId : Nat
  product_name : String
  unit_price : ℚ
  qty : Nat
deriving Repr, DecidableEq

/-- `products.models.PaymentProof.VerifyStatus` choices. -/
inductive ProofStatus
  | PENDING
  | APPROVED
  | REJECTED
deriving Repr, DecidableEq

/-- `products.models.PaymentProof` (`order` is a `OneToOneField`). -/
structure PaymentProof where
  id : Nat
  orderId : Nat
  image : String
  note : String
  status : ProofStatus
deriving Repr, DecidableEq

/-- The persistent store: one list per table plus auto-increment counters. -/
structure State where
  products : List Product
  cartItems : List CartItem
  orders : List Order
  orderItems : List OrderItem
  proofs : List PaymentProof
  nextCartItemId : Nat
  nextOrderId : Nat
  nextOrderItemId : Nat
  nextProofId : Nat
deriving Repr, DecidableEq

/-- `Product.objects.filter(id=pid, is_active=True).first()`. -/
def State.findActiveProduct (s : State) (pid : Nat) : Option Product :=
  s.products.find? (fun p => p.id == pid && p.is_active)

/-- Follow a `product` foreign key: the row with this primary key. -/
def State.findProduct (s : State) (pid : Nat) : Option Product :=
  s.products.find? (fun p => p.id == pid)

/-- Placeholder row; never reached when foreign keys are intact. -/
def dfltProduct : Product :=
  { id := 0, name := "", price := 0, discount_percent := 0,
    stock := 0, is_in_stock := false, is_active := false }

/-- Dereference a `product` foreign key (total, via the placeholder). -/
def State.productOf (s : State) (pid : Nat) : Product :=
  (s.findProduct pid).getD dfltProduct

/-- Persist a new stock value for one product
(`p.save(update_fields=["stock"])`: only `stock` is written). -/
def State.writeStock (s : State) (pid : Nat) (v : Int) : State :=
  { s with products :=
      s.products.map (fun p => if p.id == pid then { p with stock := v } else p) }

/-- Persist a new quantity for one cart item (`item.save()`). -/
def State.writeItemQty (s : State) (itemId : Nat) (q : Nat) : State :=
  { s with cartItems :=
      s.cartItems.map (fun it => if it.id == itemId then { it with qty := q } else it) }

/-- Delete one cart item row (`item.delete()`). -/
def State.eraseItem (s : State) (itemId : Nat) : State :=
  { s with cartItems := s.cartItems.filter (fun it => it.id != itemId) }

/-- Persist a new total for one order (`order.save(update_fields=["total"])`). -/
def State.writeOrderTotal (s : State) (oid : Nat) (t : ℚ) : State :=
  { s with orders :=
      s.orders.map (fun o => if o.id == oid then { o with total := t } else o) }

/-- Persist a new status for one order. -/
def State.writeOrderStatus (s : State) (oid : Nat) (st : OrderStatus) : State :=
  { s with orders :=
      s.orders.map (fun o => if o.id == oid then { o with status := st } else o) }

/-- Persist a new status for one payment proof. -/
def State.writeProofStatus (s : State) (pid : Nat) (st : ProofStatus) : State :=
  { s with proofs :=
      s.proofs.map (fun pr => if pr.id == pid then { pr with status := st } else pr) }

/-- Response of the cart-item endpoints (views.py `CartItemViewSet`). -/
inductive CartResp
  | view
  | badRequest (msg : String)
  | notFound (msg : String)
deriving Repr, DecidableEq

/-- `CartItemViewSet.create` (views.py lines 108-134): add a product to
the caller's cart.  `qty` arrives as a Python `int`.  Mirrors the
source exactly: the `product_id` falsiness check, the `qty >= 1` check,
the advisory `stock < qty` check, `get_or_create` (which inserts a row
with the default `qty=1` before the second check), the additive update
for an existing row, and the second `stock < item.qty` check. -/
def addCartItem (s : State) (u : Nat) (productId : Nat) (qty : Int) : CartResp × State :=
  if productId == 0 then (.badRequest "product_id is required", s)
  else if qty < 1 then (.badRequest "qty must be >= 1", s)
  else
    match s.findActiveProduct productId with
    | none => (.notFound "Product not found", s)
    | some product =>
      if product.stock < qty then (.badRequest "Not enough stock", s)
      else
        match s.cartItems.find? (fun it => it.cartId == u && it.productId == productId) with
        | some item =>
          let newQty := item.qty + qty.toNat
          if product.stock < (newQty : Int) then (.badRequest "Not enough stock", s)
          else (.view, s.writeItemQty item.id newQty)
        | none =>
          let fresh : CartItem :=
            { id := s.nextCartItemId, cartId := u, productId := productId, qty := 1 }
          let s1 : State :=
            { s with cartItems := s.cartItems ++ [fresh],
                     nextCartItemId := s.nextCartItemId + 1 }
          let newQty := qty.toNat
          if product.stock < (newQty : Int) then (.badRequest "Not enough stock", s1)
          else (.view, s1.writeItemQty fresh.id newQty)

/-- `CartItemViewSet` PATCH handler (views.py lines 136-154): overwrite a
cart item's quantity; a quantity below 1 deletes the row.  A missing
`qty` in the request body defaults to the item's current quantity. -/
def setCartItemQty (s : State) (u : Nat) (itemId : Nat) (qtyArg : Option Int) : CartResp × State :=
  match s.cartItems.find? (fun it => it.id == itemId && it.cartId == u) with
  | none => (.notFound "Item not found", s)
  | some item =>
    let qty := qtyArg.getD (item.qty : Int)
    if qty < 1 then (.view, s.eraseItem item.id)
    else if (s.productOf item.productId).stock < qty then
      (.badRequest "Not enough stock", s)
    else (.view, s.writeItemQty item.id qty.toNat)

/-- `CartItemViewSet.destroy` (views.py lines 156-165): delete a cart
item; a missing item yields a 404 response. -/
def removeCartItem (s : State) (u : Nat) (itemId : Nat) : CartResp × State :=
  match s.cartItems.find? (fun it => it.id == itemId && it.cartId == u) with
  | none => (.notFound "Item not found", s)
  | some item => (.view, s.eraseItem item.id)

/-- `_gen_code` (views.py lines 171-176): keep drawing random 10-token
strings until `prefix + draw` collides with no existing order code.
The source's default prefix argument is `"KH"`; callers here pass it
explicitly.  `draws` supplies the successive random draws; `none`
models the unbounded loop never terminating. -/
def gen_code (pfx : String) (existingCodes : List String) (draws : List String) : Option String :=
  match draws with
  | [] => none
  | d :: rest =>
    let code := pfx ++ d
    if existingCodes.contains code then gen_code pfx existingCodes rest
    else some code

/-- Response of `OrderViewSet.checkout`. -/
inductive CheckoutResp
  | created (orderId : Nat)
  | emptyCart
  | outOfStock (productName : String)
  | codeGenExhausted
deriving Repr, DecidableEq

/-- The cart's line items as the store returns them (the
`CartItem.objects ... .filter(cart=cart)` queryset has no `order_by`,
so rows arrive in store order). -/
def State.itemsOfCart (s : State) (u : Nat) : List CartItem :=
  s.cartItems.filter (fun it => it.cartId == u)

/-- The sequence of product ids on which `checkout` takes row locks
(`select_for_update`), i.e. the locked queryset's enumeration order
(views.py lines 247-252; no ordering clause is applied). -/
def lockSequence (s : State) (u : Nat) : List Nat :=
  (s.itemsOfCart u).map (fun it => it.productId)

/-- First locked item whose product has insufficient stock, if any
(the `for it in locked_items` check loop, views.py lines 255-260). -/
def firstShortItem (s : State) (items : List CartItem) : Option CartItem :=
  items.find? (fun it => (s.productOf it.productId).stock < (it.qty : Int))

/-- The per-item loop of `checkout` (views.py lines 272-289): snapshot
name and `final_price` into a new `OrderItem`, accumulate the running
total, and write back `stock := max 0 (stock - qty)`. -/
def processItems (s : State) (oid : Nat) (items : List CartItem) (acc : ℚ) : State × ℚ :=
  match items with
  | [] => (s, acc)
  | it :: rest =>
    let p := s.productOf it.productId
    let oi : OrderItem :=
      { id := s.nextOrderItemId, orderId := oid, productId := it.productId,
        product_name := p.name, unit_price := p.final_price, qty := it.qty }
    let s1 : State :=
      { s with orderItems := s.orderItems ++ [oi],
               nextOrderItemId := s.nextOrderItemId + 1 }
    let s2 := s1.writeStock p.id (max 0 (p.stock - (it.qty : Int)))
    processItems s2 oid rest (acc + p.final_price * (it.qty : ℚ))

/-- The committing tail of `checkout` (views.py lines 262-295), entered
once the stock re-check passed and `_gen_code` returned `code`: create
the order with a placeholder total in status `PENDING_PAYMENT`, run the
per-item loop, write the accumulated total, and delete the cart's
items. -/
def checkoutCommit (s : State) (u : Nat) (phone address note code : String)
    (now : Nat) : State :=
  let oid := s.nextOrderId
  let order : Order :=
    { id := oid, userId := u, phone := phone.trim, address := address.trim,
      note := note.trim, total := 0, order_code := code,
      status := .PENDING_PAYMENT, created_at := now }
  let s1 : State := { s with orders := s.orders ++ [order], nextOrderId := oid + 1 }
  let st := processItems s1 oid (s.itemsOfCart u) 0
  let s3 := st.1.writeOrderTotal oid st.2
  { s3 with cartItems := s3.cartItems.filter (fun it => it.cartId != u) }

/-- `OrderViewSet.checkout` (views.py lines 229-300): validate the cart
is non-empty, re-check stock under lock (aborting with the failing
product's name), then commit via `checkoutCommit`.  `draws` feeds
`_gen_code`, `now` is the creation timestamp. -/
def checkout (s : State) (u : Nat) (phone address note : String)
    (draws : List String) (now : Nat) : CheckoutResp × State :=
  let cart_items := s.itemsOfCart u
  if cart_items.isEmpty then (.emptyCart, s)
  else
    let locked_items := s.itemsOfCart u
    match firstShortItem s locked_items with
    | some it => (.outOfStock (s.productOf it.productId).name, s)
    | none =>
      match gen_code "KH" (s.orders.map (fun o => o.order_code)) draws with
      | none => (.codeGenExhausted, s)
      | some code =>
        (.created s.nextOrderId, checkoutCommit s u phone address note code now)

/-- Response of `OrderViewSet.upload_proof`. -/
inductive UploadResp
  | created (proofId : Nat)
  | alreadyUploaded
  | imageRequired
  | notFound
deriving Repr, DecidableEq

/-- `OrderViewSet.upload_proof` (views.py lines 303-325): create the
order's one payment proof in status `PENDING`; a second upload for the
same order is rejected. -/
def uploadProof (s : State) (u : Nat) (oid : Nat) (image : Option String)
    (note : String) : UploadResp × State :=
  match s.orders.find? (fun o => o.id == oid && o.userId == u) with
  | none => (.notFound, s)
  | some _ =>
    if s.proofs.any (fun pr => pr.orderId == oid) then (.alreadyUploaded, s)
    else
      match image with
      | none => (.imageRequired, s)
      | some img =>
        let pr : PaymentProof :=
          { id := s.nextProofId, orderId := oid, image := img,
            note := note, status := .PENDING }
        (.created pr.id,
         { s with proofs := s.proofs ++ [pr], nextProofId := s.nextProofId + 1 })

/-- Response of the admin verification actions. -/
inductive VerifyResp
  | done (count : Nat)
  | storeError
deriving Repr, DecidableEq

/-- The shared loop body of `PaymentProofAdmin.approve_proof` /
`reject_proof` (admin.py lines 144-166): for each selected proof, write
the proof status, then write the cascaded order status; an order-side
save that raises (its id is in `failO`) aborts the whole
`transaction.atomic` block (`none`).  In the source the proof-side save
has already executed when the order-side save raises; since the abort
discards the whole candidate state, returning `none` before the
proof-side write is observationally the same.  `updated` is the running
count. -/
def verifyLoop (s : State) (ids : List Nat) (failO : List Nat)
    (pStat : ProofStatus) (oStat : OrderStatus) (updated : Nat) : Option (State × Nat) :=
  match ids with
  | [] => some (s, updated)
  | pid :: rest =>
    match s.proofs.find? (fun pr => pr.id == pid) with
    | none => verifyLoop s rest failO pStat oStat updated
    | some pr =>
      if failO.contains pr.orderId then none
      else
        verifyLoop ((s.writeProofStatus pid pStat).writeOrderStatus pr.orderId oStat)
          rest failO pStat oStat (updated + 1)

/-- `PaymentProofAdmin.approve_proof` (admin.py lines 144-154): one
atomic transaction over the whole selected batch; a raise anywhere
rolls every write back. -/
def approve_proof (s : State) (ids : List Nat) (failO : List Nat) : VerifyResp × State :=
  match verifyLoop s ids failO .APPROVED .PAID 0 with
  | none => (.storeError, s)
  | some sn => (.done sn.2, sn.1)

/-- `PaymentProofAdmin.reject_proof` (admin.py lines 156-166). -/
def reject_proof (s : State) (ids : List Nat) (failO : List Nat) : VerifyResp × State :=
  match verifyLoop s ids failO .REJECTED .REJECTED 0 with
  | none => (.storeError, s)
  | some sn => (.done sn.2, sn.1)

/-- The operator's decision in the verification surface
(`VerifyProofs(operator, proofIds, decision)`). -/
inductive Decision
  | approve
  | reject
deriving Repr, DecidableEq

/-- Proof status written by a decision. -/
def Decision.proofTarget : Decision → ProofStatus
  | .approve => .APPROVED
  | .reject => .REJECTED

/-- Order status cascaded by a decision. -/
def Decision.orderTarget : Decision → OrderStatus
  | .approve => .PAID
  | .reject => .REJECTED

/-- Dispatch of the verification surface onto the two admin actions. -/
def verify_proofs (d : Decision) (s : State) (ids : List Nat) (failO : List Nat) :
    VerifyResp × State :=
  match d with
  | .approve => approve_proof s ids failO
  | .reject => reject_proof s ids failO

/-- Patch body accepted by the buyer-facing order update endpoint
(`OrderViewSet` is a `ModelViewSet`, so PATCH `/api/orders/<id>/`
exists and uses `OrderDetailSerializer`).  Fields the serializer marks
read-only (`order_code`, `status`, `total`) are carried here so the
model can show attempts to write them are dropped. -/
structure OrderPatch where
  phone : Option String
  address : Option String
  note : Option String
  order_code : Option String
  status : Option OrderStatus
  total : Option ℚ
deriving Repr, DecidableEq

/-- Apply a validated patch: `OrderDetailSerializer` declares
`order_code`, `status`, `total`, `created_at`, `items`, `payment_proof`
read-only (serializers.py lines 248-251), so only `phone`, `address`,
`note` are writable. -/
def applyPatch (o : Order) (d : OrderPatch) : Order :=
  { o with phone := d.phone.getD o.phone,
           address := d.address.getD o.address,
           note := d.note.getD o.note }

/-- Response of the buyer-facing order detail/update endpoints. -/
inductive OrderResp
  | detail (orderId : Nat)
  | notFound
deriving Repr, DecidableEq

/-- Buyer-facing PATCH of an order (inherited
`ModelViewSet.partial_update` with `OrderDetailSerializer`; the
queryset is filtered to the caller's own orders). -/
def patchOrder (s : State) (u : Nat) (oid : Nat) (d : OrderPatch) : OrderResp × State :=
  match s.orders.find? (fun o => o.id == oid && o.userId == u) with
  | none => (.notFound, s)
  | some _ =>
    (.detail oid,
     { s with orders :=
         s.orders.map (fun o => if o.id == oid && o.userId == u then applyPatch o d else o) })

/-- Every operation the modelled core exposes, with its inputs. -/
inductive Op
  | addItem (u productId : Nat) (qty : Int)
  | setItemQty (u itemId : Nat) (qty : Option Int)
  | removeItem (u itemId : Nat)
  | doCheckout (u : Nat) (phone address note : String) (draws : List String) (now : Nat)
  | upload (u oid : Nat) (image : Option String) (note : String)
  | verify (d : Decision) (ids : List Nat) (failO : List Nat)
  | patch (u oid : Nat) (d : OrderPatch)

/-- State transition of one core operation. -/
def step (s : State) : Op → State
  | .addItem u p q => (addCartItem s u p q).2
  | .setItemQty u i q => (setCartItemQty s u i q).2
  | .removeItem u i => (removeCartItem s u i).2
  | .doCheckout u ph ad nt dr now => (checkout s u ph ad nt dr now).2
  | .upload u oid img nt => (uploadProof s u oid img nt).2
  | .verify d ids failO => (verify_proofs d s ids failO).2
  | .patch u oid d => (patchOrder s u oid d).2

/-- All product stocks are non-negative. -/
def stockInv (s : State) : Prop := ∀ p ∈ s.products, 0 ≤ p.stock

/-- Catalog fields of a product (everything except `stock` and
`is_in_stock`): these determine `final_price` and the snapshot name. -/
def catalogView (p : Product) : Nat × String × ℚ × Nat × Bool :=
  (p.id, p.name, p.price, p.discount_percent, p.is_active)

/-- Total of an order as stored, if the order exists. -/
def orderTotal (s : State) (oid : Nat) : Option ℚ :=
  (s.orders.find? (fun o => o.id == oid)).map (fun o => o.total)

/-- Exact sum of `unit_price × qty` over an order's items. -/
def orderItemSum (s : State) (oid : Nat) : ℚ :=
  ((s.orderItems.filter (fun oi => oi.orderId == oid)).map
    (fun oi => oi.unit_price * (oi.qty : ℚ))).sum

/-- Well-formedness a real Django database guarantees: unique product
primary keys, intact cart→product foreign keys, the `(cart, product)`
unique constraint, unique cart-item primary keys, and freshness of the
order auto-increment counter. -/
def WF (s : State) : Prop :=
  s.products.Pairwise (fun a b => a.id ≠ b.id) ∧
  (∀ it ∈ s.cartItems, ∃ p ∈ s.products, p.id = it.productId) ∧
  s.cartItems.Pairwise (fun a b => ¬(a.cartId = b.cartId ∧ a.productId = b.productId)) ∧
  s.cartItems.Pairwise (fun a b => a.id ≠ b.id) ∧
  (∀ oi ∈ s.orderItems, oi.orderId < s.nextOrderId) ∧
  (∀ o ∈ s.orders, o.id < s.nextOrderId)

/-- Well-formedness of the verification tables: unique proof primary
keys, the `PaymentProof.order` one-to-one constraint, and intact
proof→order foreign keys with unique order primary keys. -/
def proofsWF (s : State) : Prop :=
  s.proofs.Pairwise (fun a b => a.id ≠ b.id ∧ a.orderId ≠ b.orderId) ∧
  s.orders.Pairwise (fun a b => a.id ≠ b.id) ∧
  (∀ pr ∈ s.proofs, ∃ o ∈ s.orders, o.id = pr.orderId)

/-! Concrete stores used to instantiate the theorems below. -/

/-- A product at price 500, no discount, stock 5. -/
def prodA : Product :=
  { id := 1, name := "A", price := 500, discount_percent := 0,
    stock := 5, is_in_stock := true, is_active := true }

/-- A product at price 1000, no discount, stock 3. -/
def prodB : Product :=
  { id := 2, name := "B", price := 1000, discount_percent := 0,
    stock := 3, is_in_stock := true, is_active := true }

/-- A pre-existing order whose code collides with the first draw below. -/
def ordPrev : Order :=
  { id := 0, userId := 9, phone := "p", address := "a", note := "",
    total := 1, order_code := "KHABCDEFGH12", status := .PAID, created_at := 0 }

/-- Store for the two-line checkout scenario: user 7's cart holds
qty 2 of `prodA` and qty 1 of `prodB`. -/
def c5State : State :=
  { products := [prodA, prodB],
    cartItems := [⟨101, 7, 1, 2⟩, ⟨102, 7, 2, 1⟩],
    orders := [ordPrev], orderItems := [], proofs := [],
    nextCartItemId := 103, nextOrderId := 1, nextOrderItemId := 1, nextProofId := 1 }

/-- The two-line checkout run; the first code draw collides with
`ordPrev`, the second is fresh. -/
def c5Run : CheckoutResp × State :=
  checkout c5State 7 "012" "addr" "" ["ABCDEFGH12", "ZZZZZZZZ00"] 5

/-- Store whose cart rows arrive with descending product ids. -/
def c3State : State :=
  { products := [prodA, prodB],
    cartItems := [⟨11, 1, 2, 1⟩, ⟨12, 1, 1, 1⟩],
    orders := [], orderItems := [], proofs := [],
    nextCartItemId := 13, nextOrderId := 1, nextOrderItemId := 1, nextProofId := 1 }

/-- Store with one unit of stock but a cart line asking for two. -/
def c2State : State :=
  { products := [{ id := 3, name := "C", price := 250, discount_percent := 20,
                   stock := 1, is_in_stock := true, is_active := true }],
    cartItems := [⟨21, 4, 3, 2⟩],
    orders := [], orderItems := [], proofs := [],
    nextCartItemId := 22, nextOrderId := 1, nextOrderItemId := 1, nextProofId := 1 }

/-- Store with one product (stock 5) and an empty cart. -/
def c6State : State :=
  { products := [prodA], cartItems := [], orders := [], orderItems := [], proofs := [],
    nextCartItemId := 1, nextOrderId := 1, nextOrderItemId := 1, nextProofId := 1 }

/-- Store with two pending proofs on two distinct orders. -/
def c7State : State :=
  { products := [], cartItems := [],
    orders := [⟨1, 4, "p", "a", "", 100, "KHAAAAAAAA01", .PENDING_PAYMENT, 0⟩,
               ⟨2, 5, "q", "b", "", 200, "KHAAAAAAAA02", .PENDING_PAYMENT, 0⟩],
    orderItems := [],
    proofs := [⟨1, 1, "img1", "", .PENDING⟩, ⟨2, 2, "img2", "", .PENDING⟩],
    nextCartItemId := 1, nextOrderId := 3, nextOrderItemId := 1, nextProofId := 3 }

/-- Store holding an already-approved proof. -/
def c8State : State :=
  { products := [], cartItems := [],
    orders := [⟨1, 4, "p", "a", "", 100, "KHAAAAAAAA03", .PAID, 0⟩],
    orderItems := [],
    proofs := [⟨1, 1, "img", "", .APPROVED⟩],
    nextCartItemId := 1, nextOrderId := 2, nextOrderItemId := 1, nextProofId := 2 }

/-- Store holding one order owned by user 4. -/
def c9State : State :=
  { products := [], cartItems := [],
    orders := [⟨1, 4, "0123", "addr", "n", 100, "KHAAAAAAAA04", .PENDING_PAYMENT, 3⟩],
    orderItems := [], proofs := [],
    nextCartItemId := 1, nextOrderId := 2, nextOrderItemId := 1, nextProofId := 1 }

/-- Patch that rewrites the phone and also tries to write the
read-only code/status/total fields. -/
def c9Patch : OrderPatch :=
  { phone := some "999", address := none, note := none,
    order_code := some "KHHACKED0000", status := some .DELIVERED, total := some 0 }

/-- Store with no cart items at all. -/
def c10State : State :=
  { products := [], cartItems := [], orders := [], orderItems := [], proofs := [],
    nextCartItemId := 1, nextOrderId := 1, nextOrderItemId := 1, nextProofId := 1 }

/-! Helper lemmas. -/

/-- `applyPatch` can only touch `phone`, `address`, `note`. -/
theorem applyPatch_frame (o : Order) (d : OrderPatch) :
    (applyPatch o d).id = o.id ∧ (applyPatch o d).order_code = o.order_code ∧
    (applyPatch o d).userId = o.userId ∧ (applyPatch o d).status = o.status ∧
    (applyPatch o d).total = o.total ∧ (applyPatch o d).created_at = o.created_at := by
  simp [applyPatch]

/-! C5 -/

/-- C5: checking out the two-line cart of `c5State` (qty 2 at final
price 500, qty 1 at final price 1000) succeeds, writes total 2000,
decrements the two stocks by 2 and 1, empties the cart, and assigns a
12-character order code beginning with "KH" that is unique across all
orders (the first colliding draw is retried). -/
theorem checkout_two_line_example :
    c5Run.1 = .created 1 ∧
    prodA.final_price = 500 ∧ prodB.final_price = 1000 ∧
    orderTotal c5Run.2 1 = some 2000 ∧
    (c5Run.2.productOf 1).stock = prodA.stock - 2 ∧
    (c5Run.2.productOf 2).stock = prodB.stock - 1 ∧
    c5Run.2.itemsOfCart 7 = [] ∧
    (c5Run.2.orders.find? (fun o => o.id == 1)).map (fun o => o.order_code)
      = some "KHZZZZZZZZ00" ∧
    "KHZZZZZZZZ00".length = 12 ∧ (∃ t, "KHZZZZZZZZ00" = "KH" ++ t) ∧
    (∀ o ∈ c5Run.2.orders, o.id ≠ 1 → o.order_code ≠ "KHZZZZZZZZ00") := by
  have h1 : ("KH" ++ "ABCDEFGH12" : String) = "KHABCDEFGH12" := by decide
  have h2 : ("KH" ++ "ZZZZZZZZ00" : String) = "KHZZZZZZZZ00" := by decide
  have h3 : ¬ ("KHZZZZZZZZ00" : String) = "KHABCDEFGH12" := by decide
  have h4 : ¬ ("KHABCDEFGH12" : String) = "KHZZZZZZZZ00" := by decide
  refine ⟨?_, by norm_num [prodA, Product.final_price],
    by norm_num [prodB, Product.final_price], ?_, ?_, ?_, ?_, ?_,
    by decide, ⟨"ZZZZZZZZ00", by decide⟩, ?_⟩ <;>
    norm_num [c5Run, checkout, checkoutCommit, c5State, prodA, prodB, ordPrev,
      State.itemsOfCart, firstShortItem, State.productOf, State.findProduct,
      gen_code, processItems, State.writeStock, State.writeOrderTotal,
      dfltProduct, orderTotal, Product.final_price, h1, h2, h3, h4]

/-! C3 -/

/-- C3 counterexample: in the store `c3State` the cart's rows arrive
with product ids `[2, 1]`, and `checkout` applies no ordering clause,
so the exclusive locks are NOT acquired in ascending product-identifier
order. -/
theorem lock_sequence_not_ascending_cex :
    lockSequence c3State 1 = [2, 1] ∧
    ¬ List.Sorted (· ≤ ·) (lockSequence c3State 1) := by
  have he : lockSequence c3State 1 = [2, 1] := by decide
  refine ⟨he, ?_⟩
  rw [he]
  decide

/-- C3 amended: `checkout` acquires locks in the order the store
returns the cart's line items (no reordering by product identifier);
in particular the sequence is ascending exactly when the stored rows
already are. -/
theorem lock_sequence_ascending_of_store_order (s : State) (u : Nat)
    (h : (s.itemsOfCart u).Pairwise (fun a b => a.productId ≤ b.productId)) :
    List.Sorted (· ≤ ·) (lockSequence s u) :=
  List.Pairwise.map _ (fun _ _ hab => hab) h

/-- Witness for the amended C3 theorem at the store `c5State`. -/
theorem lock_sequence_ascending_witness :
    List.Sorted (· ≤ ·) (lockSequence c5State 7) :=
  lock_sequence_ascending_of_store_order c5State 7 (by decide)

/-! C10 -/

/-- C10 counterexample: removing a cart item that does not exist
returns a 404 "Item not found" failure, not the cart view. -/
theorem remove_missing_item_not_found_cex :
    (removeCartItem c10State 1 99).1 = .notFound "Item not found" ∧
    (removeCartItem c10State 1 99).1 ≠ .view := by
  decide

/-- C10 amended: removing an existing cart item deletes it and returns
the cart view; removing a non-existent (or not owned) item returns a
404 failure and leaves the store unchanged. -/
theorem remove_item_spec (s : State) (u itemId : Nat) :
    ((s.cartItems.find? (fun it => it.id == itemId && it.cartId == u)).isSome →
      (removeCartItem s u itemId).1 = .view ∧
      (∀ j ∈ (removeCartItem s u itemId).2.cartItems, j.id ≠ itemId) ∧
      (removeCartItem s u itemId).2.cartItems
        = s.cartItems.filter (fun j => j.id != itemId)) ∧
    (s.cartItems.find? (fun it => it.id == itemId && it.cartId == u) = none →
      removeCartItem s u itemId = (.notFound "Item not found", s)) := by
  constructor
  · intro hs
    obtain ⟨item, hf⟩ := Option.isSome_iff_exists.mp hs
    have hp := List.find?_some hf
    have hid : item.id = itemId := by
      simp only [Bool.and_eq_true, beq_iff_eq] at hp
      exact hp.1
    refine ⟨by simp [removeCartItem, hf], ?_, ?_⟩
    · intro j hj
      have : j ∈ (s.eraseItem item.id).cartItems := by
        simpa [removeCartItem, hf] using hj
      simp only [State.eraseItem, List.mem_filter, bne_iff_ne, ne_eq] at this
      rw [hid] at this
      exact this.2
    · simp [removeCartItem, hf, State.eraseItem, hid]
  · intro hn
    simp [removeCartItem, hn]

/-- Witness for the amended C10 theorem: both branches exercised on
concrete stores. -/
theorem remove_item_spec_witness :
    (removeCartItem c3State 1 11).1 = .view ∧
    removeCartItem c10State 1 99 = (.notFound "Item not found", c10State) :=
  ⟨((remove_item_spec c3State 1 11).1 (by decide)).1,
   (remove_item_spec c10State 1 99).2 (by decide)⟩

/-! C9 -/

/-- C9 counterexample: the buyer-facing PATCH on an existing order
(inherited from `ModelViewSet` with `OrderDetailSerializer`) rewrites
the shipping phone, so orders are not immutable outside status/total. -/
theorem order_update_changes_phone_cex :
    ((patchOrder c9State 4 1 c9Patch).2.orders.find? (fun o => o.id == 1)).map
        (fun o => o.phone) = some "999" ∧
    (c9State.orders.find? (fun o => o.id == 1)).map (fun o => o.phone)
      = some "0123" ∧
    "999" ≠ "0123" := by
  decide

/-- C9 amended: buyer-facing order updates can rewrite only the
shipping fields (`phone`, `address`, `note`): the serializer drops
writes to `order_code`, `status`, `total`, `created_at`, the owner and
the items, so those survive any patch, and the order rows themselves
are never created or deleted by the update. -/
theorem order_update_frame (s : State) (u oid : Nat) (d : OrderPatch) :
    (patchOrder s u oid d).2.orderItems = s.orderItems ∧
    (patchOrder s u oid d).2.proofs = s.proofs ∧
    (patchOrder s u oid d).2.cartItems = s.cartItems ∧
    (patchOrder s u oid d).2.products = s.products ∧
    ∀ o ∈ s.orders, ∃ o' ∈ (patchOrder s u oid d).2.orders,
      o'.id = o.id ∧ o'.order_code = o.order_code ∧ o'.userId = o.userId ∧
      o'.status = o.status ∧ o'.total = o.total ∧ o'.created_at = o.created_at := by
  unfold patchOrder
  cases hf : s.orders.find? (fun o => o.id == oid && o.userId == u) with
  | none => exact ⟨rfl, rfl, rfl, rfl, fun o ho => ⟨o, ho, rfl, rfl, rfl, rfl, rfl, rfl⟩⟩
  | some o0 =>
    refine ⟨rfl, rfl, rfl, rfl, fun o ho => ?_⟩
    refine ⟨if o.id == oid && o.userId == u then applyPatch o d else o,
      List.mem_map_of_mem _ ho, ?_⟩
    by_cases hc : (o.id == oid && o.userId == u) = true
    · simpa [hc] using applyPatch_frame o d
    · simp [hc]

/-- Witness for the amended C9 theorem at the store `c9State`. -/
theorem order_update_frame_witness :
    ∃ o' ∈ (patchOrder c9State 4 1 c9Patch).2.orders,
      o'.id = 1 ∧ o'.order_code = "KHAAAAAAAA04" ∧ o'.userId = 4 ∧
      o'.status = .PENDING_PAYMENT ∧ o'.total = 100 ∧ o'.created_at = 3 := by
  have h := (order_update_frame c9State 4 1 c9Patch).2.2.2.2
    ⟨1, 4, "0123", "addr", "n", 100, "KHAAAAAAAA04", .PENDING_PAYMENT, 3⟩ (by decide)
  simpa using h

/-! C8 counterexample -/

/-- C8 counterexample: `APPROVED` is not terminal — the reject action
overwrites an already-approved proof's status to `REJECTED`. -/
theorem decided_proof_overwritten_cex :
    (c8State.proofs.find? (fun pr => pr.id == 1)).map (fun pr => pr.status)
      = some .APPROVED ∧
    ((step c8State (.verify .reject [1] [])).proofs.find?
        (fun pr => pr.id == 1)).map (fun pr => pr.status) = some .REJECTED := by
  decide

/-! Frame lemmas: which tables each operation leaves untouched. -/

/-- Adding a cart item never writes the product or proof tables. -/
theorem addCartItem_frame (s : State) (u p : Nat) (q : Int) :
    (addCartItem s u p q).2.products = s.products ∧
    (addCartItem s u p q).2.proofs = s.proofs := by
  unfold addCartItem
  dsimp only
  constructor
  all_goals (repeat' split)
  all_goals rfl

/-- Overwriting a cart item's quantity never writes the product or
proof tables. -/
theorem setCartItemQty_frame (s : State) (u i : Nat) (q : Option Int) :
    (setCartItemQty s u i q).2.products = s.products ∧
    (setCartItemQty s u i q).2.proofs = s.proofs := by
  unfold setCartItemQty
  dsimp only
  constructor
  all_goals (repeat' split)
  all_goals rfl

/-- Removing a cart item never writes the product or proof tables. -/
theorem removeCartItem_frame (s : State) (u i : Nat) :
    (removeCartItem s u i).2.products = s.products ∧
    (removeCartItem s u i).2.proofs = s.proofs := by
  unfold removeCartItem
  constructor
  all_goals (repeat' split)
  all_goals rfl

/-- Uploading a proof leaves products untouched and only appends to the
proof table. -/
theorem uploadProof_frame (s : State) (u oid : Nat) (img : Option String) (nt : String) :
    (uploadProof s u oid img nt).2.products = s.products ∧
    ((uploadProof s u oid img nt).2.proofs = s.proofs ∨
      ∃ q, (uploadProof s u oid img nt).2.proofs
        = s.proofs ++ [⟨s.nextProofId, oid, q, nt, .PENDING⟩]) := by
  unfold uploadProof
  dsimp only
  repeat' first
  | (exact ⟨rfl, Or.inl rfl⟩)
  | (exact ⟨rfl, Or.inr ⟨_, rfl⟩⟩)
  | split

/-- The buyer-facing order update touches only the order table. -/
theorem patchOrder_state_frame (s : State) (u oid : Nat) (d : OrderPatch) :
    (patchOrder s u oid d).2.products = s.products ∧
    (patchOrder s u oid d).2.proofs = s.proofs ∧
    (patchOrder s u oid d).2.cartItems = s.cartItems ∧
    (patchOrder s u oid d).2.orderItems = s.orderItems := by
  unfold patchOrder
  repeat' first
  | (exact ⟨rfl, rfl, rfl, rfl⟩)
  | split

/-- The checkout item loop touches only products, order items and the
order-item counter. -/
theorem processItems_frame (items : List CartItem) (s : State) (oid : Nat) (acc : ℚ) :
    (processItems s oid items acc).1.proofs = s.proofs ∧
    (processItems s oid items acc).1.orders = s.orders ∧
    (processItems s oid items acc).1.cartItems = s.cartItems ∧
    (processItems s oid items acc).1.nextOrderId = s.nextOrderId := by
  induction items generalizing s acc with
  | nil => simp [processItems]
  | cons it rest ih =>
    simp only [processItems]
    exact ih _ _

/-- `checkout` either aborts with the store unchanged or commits. -/
theorem checkout_snd_cases (s : State) (u : Nat) (ph ad nt : String)
    (draws : List String) (now : Nat) :
    (checkout s u ph ad nt draws now).2 = s ∨
    ∃ code, (checkout s u ph ad nt draws now).2
      = checkoutCommit s u ph ad nt code now := by
  unfold checkout
  by_cases he : (s.itemsOfCart u).isEmpty
  · left; simp [he]
  · cases hfs : firstShortItem s (s.itemsOfCart u) with
    | some it => left; simp [he, hfs]
    | none =>
      cases hg : gen_code "KH" (s.orders.map fun o => o.order_code) draws with
      | none => left; simp [he, hfs, hg]
      | some code => right; exact ⟨code, by simp [he, hfs, hg]⟩

/-- The committed checkout state never touches the proof table. -/
theorem checkoutCommit_proofs (s : State) (u : Nat) (ph ad nt code : String) (now : Nat) :
    (checkoutCommit s u ph ad nt code now).proofs = s.proofs := by
  simp only [checkoutCommit, State.writeOrderTotal]
  exact (processItems_frame _ _ _ _).1

/-- Writing a non-negative stock value preserves the stock invariant. -/
theorem writeStock_stockInv (s : State) (pid : Nat) (v : Int)
    (h : stockInv s) (hv : 0 ≤ v) : stockInv (s.writeStock pid v) := by
  intro p hp
  simp only [State.writeStock, List.mem_map] at hp
  obtain ⟨p0, hp0, hEq⟩ := hp
  by_cases hc : (p0.id == pid) = true
  · rw [← hEq]; simp [hc, hv]
  · rw [← hEq]; simp only [hc, if_false, Bool.false_eq_true]; exact h p0 hp0

/-- The checkout item loop preserves the stock invariant: every stock
write is clamped at `max 0 _`. -/
theorem processItems_stockInv (items : List CartItem) (s : State) (oid : Nat) (acc : ℚ)
    (h : stockInv s) : stockInv (processItems s oid items acc).1 := by
  induction items generalizing s acc with
  | nil => simpa [processItems] using h
  | cons it rest ih =>
    simp only [processItems]
    apply ih
    apply writeStock_stockInv
    · intro p hp
      exact h p hp
    · exact le_max_left 0 _

/-- The committed checkout state keeps all stocks non-negative. -/
theorem checkoutCommit_stockInv (s : State) (u : Nat) (ph ad nt code : String)
    (now : Nat) (h : stockInv s) : stockInv (checkoutCommit s u ph ad nt code now) := by
  intro x hx
  simp only [checkoutCommit, State.writeOrderTotal] at hx
  refine processItems_stockInv _ _ _ _ ?_ x hx
  intro p hp
  exact h p hp

/-- The verification loop touches only proof and order statuses; in
particular products, cart items and order items are untouched. -/
theorem verifyLoop_frame (ids : List Nat) :
    ∀ (s : State) (failO : List Nat) (pS : ProofStatus) (oS : OrderStatus) (k : Nat)
      (s' : State) (n : Nat), verifyLoop s ids failO pS oS k = some (s', n) →
      s'.products = s.products ∧ s'.cartItems = s.cartItems ∧
      s'.orderItems = s.orderItems := by
  induction ids with
  | nil =>
    intro s failO pS oS k s' n h
    simp only [verifyLoop, Option.some.injEq, Prod.mk.injEq] at h
    rw [← h.1]
    exact ⟨rfl, rfl, rfl⟩
  | cons pid rest ih =>
    intro s failO pS oS k s' n h
    unfold verifyLoop at h
    cases hf : s.proofs.find? (fun pr => pr.id == pid) with
    | none =>
      rw [hf] at h
      exact ih _ _ _ _ _ _ _ h
    | some pr0 =>
      rw [hf] at h
      rw [Option.ite_none_left_eq_some] at h
      have := ih _ _ _ _ _ _ _ h.2
      simpa [State.writeProofStatus, State.writeOrderStatus] using this

/-- A verification action either rolls the whole batch back or reaches
the loop's final state. -/
theorem verify_snd_cases (d : Decision) (s : State) (ids failO : List Nat) :
    (verify_proofs d s ids failO).2 = s ∨
    ∃ n, verifyLoop s ids failO d.proofTarget d.orderTarget 0
      = some ((verify_proofs d s ids failO).2, n) := by
  cases d with
  | approve =>
    simp only [verify_proofs, approve_proof, Decision.proofTarget, Decision.orderTarget]
    cases hv : verifyLoop s ids failO .APPROVED .PAID 0 with
    | none => left; rfl
    | some sn => right; exact ⟨sn.2, by simp⟩
  | reject =>
    simp only [verify_proofs, reject_proof, Decision.proofTarget, Decision.orderTarget]
    cases hv : verifyLoop s ids failO .REJECTED .REJECTED 0 with
    | none => left; rfl
    | some sn => right; exact ⟨sn.2, by simp⟩

/-! C4 -/

/-- C4: every core operation (cart mutation, checkout, proof upload and
verification, order update) preserves non-negativity of every product's
stock: checkout's stock writes are clamped at `max 0 _` and no other
operation writes stock. -/
theorem stock_nonneg_invariant (s : State) (op : Op) (h : stockInv s) :
    stockInv (step s op) := by
  cases op with
  | addItem u p q =>
    intro x hx; rw [step, (addCartItem_frame s u p q).1] at hx; exact h x hx
  | setItemQty u i q =>
    intro x hx; rw [step, (setCartItemQty_frame s u i q).1] at hx; exact h x hx
  | removeItem u i =>
    intro x hx; rw [step, (removeCartItem_frame s u i).1] at hx; exact h x hx
  | doCheckout u ph ad nt draws now =>
    rw [step]
    rcases checkout_snd_cases s u ph ad nt draws now with hca | ⟨code, hcc⟩
    · rw [hca]; exact h
    · rw [hcc]; exact checkoutCommit_stockInv s u ph ad nt code now h
  | upload u oid img nt =>
    intro x hx; rw [step, (uploadProof_frame s u oid img nt).1] at hx; exact h x hx
  | verify d ids failO =>
    rw [step]
    rcases verify_snd_cases d s ids failO with hv | ⟨n, hv⟩
    · rw [hv]; exact h
    · intro x hx
      rw [(verifyLoop_frame ids s failO _ _ 0 _ n hv).1] at hx
      exact h x hx
  | patch u oid d =>
    intro x hx; rw [step, (patchOrder_state_frame s u oid d).1] at hx; exact h x hx

/-- Witness for C4 at a concrete store and operation. -/
theorem stock_nonneg_invariant_witness :
    stockInv c5State ∧ stockInv (step c5State (.addItem 7 1 3)) :=
  ⟨by unfold stockInv; decide,
   stock_nonneg_invariant c5State (.addItem 7 1 3) (by unfold stockInv; decide)⟩

/-! C8 amended -/

/-- Writing a non-`PENDING` status anywhere in the proof table keeps
every decided proof decided. -/
theorem writeProofStatus_keeps_decided (s : State) (q : Nat) (st : ProofStatus)
    (hst : st ≠ .PENDING) (pr : PaymentProof) (hmem : pr ∈ s.proofs)
    (hp : pr.status ≠ .PENDING) :
    ∃ pr' ∈ (s.writeProofStatus q st).proofs,
      pr'.id = pr.id ∧ pr'.status ≠ .PENDING := by
  refine ⟨_, List.mem_map_of_mem _ hmem, ?_⟩
  by_cases hc : (pr.id == q) = true <;> simp [hc, hst, hp]

/-- The verification loop writes only the decision's target status, so
a decided proof stays decided through the whole batch. -/
theorem verifyLoop_keeps_decided (ids : List Nat) :
    ∀ (s : State) (failO : List Nat) (pS : ProofStatus) (oS : OrderStatus) (k : Nat)
      (s' : State) (n : Nat), pS ≠ .PENDING →
      verifyLoop s ids failO pS oS k = some (s', n) →
      ∀ pr ∈ s.proofs, pr.status ≠ .PENDING →
      ∃ pr' ∈ s'.proofs, pr'.id = pr.id ∧ pr'.status ≠ .PENDING := by
  induction ids with
  | nil =>
    intro s failO pS oS k s' n hpS h pr hmem hp
    simp only [verifyLoop, Option.some.injEq, Prod.mk.injEq] at h
    rw [← h.1]
    exact ⟨pr, hmem, rfl, hp⟩
  | cons pid rest ih =>
    intro s failO pS oS k s' n hpS h pr hmem hp
    unfold verifyLoop at h
    cases hf : s.proofs.find? (fun x => x.id == pid) with
    | none =>
      rw [hf] at h
      exact ih _ _ _ _ _ _ _ hpS h pr hmem hp
    | some pr0 =>
      rw [hf] at h
      rw [Option.ite_none_left_eq_some] at h
      obtain ⟨pr1, hmem1, hid1, hst1⟩ :=
        writeProofStatus_keeps_decided s pid pS hpS pr hmem hp
      have hmem2 : pr1 ∈ ((s.writeProofStatus pid pS).writeOrderStatus
          pr0.orderId oS).proofs := hmem1
      obtain ⟨pr2, hmem3, hid2, hst2⟩ := ih _ _ _ _ _ _ _ hpS h.2 pr1 hmem2 hst1
      exact ⟨pr2, hmem3, hid2.trans hid1, hst2⟩

/-- C8 amended: once a proof's status is `APPROVED` or `REJECTED` it
never returns to `PENDING` under any core operation — but it is not
frozen: the admin actions overwrite decided proofs (see the
counterexample), so only the non-`PENDING` property is terminal. -/
theorem decided_proof_never_pending (s : State) (op : Op) (pr : PaymentProof)
    (hmem : pr ∈ s.proofs) (hst : pr.status ≠ .PENDING) :
    ∃ pr' ∈ (step s op).proofs, pr'.id = pr.id ∧ pr'.status ≠ .PENDING := by
  cases op with
  | addItem u p q =>
    rw [step, (addCartItem_frame s u p q).2]; exact ⟨pr, hmem, rfl, hst⟩
  | setItemQty u i q =>
    rw [step, (setCartItemQty_frame s u i q).2]; exact ⟨pr, hmem, rfl, hst⟩
  | removeItem u i =>
    rw [step, (removeCartItem_frame s u i).2]; exact ⟨pr, hmem, rfl, hst⟩
  | doCheckout u ph ad nt draws now =>
    rw [step]
    rcases checkout_snd_cases s u ph ad nt draws now with hca | ⟨code, hcc⟩
    · rw [hca]; exact ⟨pr, hmem, rfl, hst⟩
    · rw [hcc, checkoutCommit_proofs]; exact ⟨pr, hmem, rfl, hst⟩
  | upload u oid img nt =>
    rw [step]
    rcases (uploadProof_frame s u oid img nt).2 with hp | ⟨q, hp⟩
    · rw [hp]; exact ⟨pr, hmem, rfl, hst⟩
    · rw [hp]; exact ⟨pr, List.mem_append_left _ hmem, rfl, hst⟩
  | verify d ids failO =>
    rw [step]
    rcases verify_snd_cases d s ids failO with hv | ⟨n, hv⟩
    · rw [hv]; exact ⟨pr, hmem, rfl, hst⟩
    · have hpS : d.proofTarget ≠ .PENDING := by cases d <;> simp [Decision.proofTarget]
      exact verifyLoop_keeps_decided ids s failO _ _ 0 _ n hpS hv pr hmem hst
  | patch u oid d =>
    rw [step, (patchOrder_state_frame s u oid d).2.1]; exact ⟨pr, hmem, rfl, hst⟩

/-- Witness for the amended C8 theorem at the store `c8State`. -/
theorem decided_proof_never_pending_witness :
    ∃ pr' ∈ (step c8State (.verify .approve [1] [])).proofs,
      pr'.id = 1 ∧ pr'.status ≠ .PENDING := by
  have h := decided_proof_never_pending c8State (.verify .approve [1] [])
    ⟨1, 1, "img", "", .APPROVED⟩ (by decide) (by decide)
  simpa using h

/-! C2 -/

/-- C2: if any locked cart line's product has stock strictly below the
line's quantity, checkout fails reporting a failing product's name and
the store is completely unchanged — no order, no order items, no stock
decrement, and the cart is untouched. -/
theorem checkout_aborts_on_stock_shortage (s : State) (u : Nat) (ph ad nt : String)
    (draws : List String) (now : Nat)
    (h : ∃ it ∈ s.itemsOfCart u, (s.productOf it.productId).stock < (it.qty : Int)) :
    (checkout s u ph ad nt draws now).2 = s ∧
    ∃ it ∈ s.itemsOfCart u, (s.productOf it.productId).stock < (it.qty : Int) ∧
      (checkout s u ph ad nt draws now).1
        = .outOfStock (s.productOf it.productId).name := by
  obtain ⟨it0, hmem0, hlt0⟩ := h
  have hne : (s.itemsOfCart u).isEmpty = false := by
    cases hl : s.itemsOfCart u with
    | nil => rw [hl] at hmem0; exact absurd hmem0 (List.not_mem_nil it0)
    | cons a l => rfl
  have hsome : (firstShortItem s (s.itemsOfCart u)).isSome := by
    rw [firstShortItem, List.find?_isSome]
    exact ⟨it0, hmem0, by simpa using hlt0⟩
  obtain ⟨it1, hf⟩ := Option.isSome_iff_exists.mp hsome
  have hmem1 : it1 ∈ s.itemsOfCart u := by
    rw [firstShortItem] at hf
    exact List.mem_of_find?_eq_some hf
  have hp1 : (s.productOf it1.productId).stock < (it1.qty : Int) := by
    rw [firstShortItem] at hf
    simpa using List.find?_some hf
  refine ⟨?_, it1, hmem1, hp1, ?_⟩
  · unfold checkout
    simp [hne, hf]
  · unfold checkout
    simp [hne, hf]

/-- Witness for C2 at the store `c2State` (stock 1, requested qty 2). -/
theorem checkout_aborts_on_stock_shortage_witness :
    (checkout c2State 4 "1" "a" "" ["AAAAAAAAAA"] 0).2 = c2State ∧
    ∃ it ∈ c2State.itemsOfCart 4,
      (c2State.productOf it.productId).stock < (it.qty : Int) ∧
      (checkout c2State 4 "1" "a" "" ["AAAAAAAAAA"] 0).1
        = .outOfStock (c2State.productOf it.productId).name :=
  checkout_aborts_on_stock_shortage c2State 4 "1" "a" "" ["AAAAAAAAAA"] 0
    ⟨⟨21, 4, 3, 2⟩, by decide, by decide⟩

/-! C6 -/

/-- Under the `(cart, product)` unique constraint, the row found by
`get_or_create` is the only row of that cart/product pair. -/
theorem cart_filter_unique (s : State) (u productId : Nat) (item : CartItem)
    (hpair : s.cartItems.Pairwise
      (fun a b => ¬(a.cartId = b.cartId ∧ a.productId = b.productId)))
    (hf : s.cartItems.find? (fun it => it.cartId == u && it.productId == productId)
      = some item) :
    s.cartItems.filter (fun it => it.cartId == u && it.productId == productId)
      = [item] := by
  obtain ⟨hpitem, as, bs, hsplit, hnone⟩ := List.find?_eq_some.mp hf
  rw [hsplit] at hpair ⊢
  rw [List.filter_append, List.filter_cons, if_pos hpitem]
  have h1 : as.filter (fun it => it.cartId == u && it.productId == productId) = [] := by
    rw [List.filter_eq_nil_iff]
    intro a ha
    have hb := hnone a ha
    rw [Bool.not_eq_true'] at hb
    simp [hb]
  have h2 : bs.filter (fun it => it.cartId == u && it.productId == productId) = [] := by
    rw [List.filter_eq_nil_iff]
    intro b hb hpb
    have hrel := (List.pairwise_cons.mp (List.pairwise_append.mp hpair).2.1).1 b hb
    simp only [Bool.and_eq_true, beq_iff_eq] at hpitem hpb
    exact hrel ⟨hpitem.1.trans hpb.1.symm, hpitem.2.trans hpb.2.symm⟩
  rw [h1, h2]
  rfl

/-- Saving a new quantity commutes with filtering on the cart/product
pair, which the quantity write does not change. -/
theorem writeItemQty_filter (s : State) (iid q u productId : Nat) :
    (s.writeItemQty iid q).cartItems.filter
        (fun it => it.cartId == u && it.productId == productId)
      = (s.cartItems.filter (fun it => it.cartId == u && it.productId == productId)).map
          (fun it => if it.id == iid then { it with qty := q } else it) := by
  simp only [State.writeItemQty]
  rw [List.filter_map]
  congr 1
  apply List.filter_congr
  intro it _
  by_cases hc : (it.id == iid) = true <;> simp [Function.comp, hc]

/-- C6: with a valid request (nonzero product id, qty ≥ 1, product found
and active), adding to the cart fails with the insufficient-stock error
exactly when the resulting quantity — existing quantity plus requested
when the product is already in the cart, else the requested quantity —
exceeds current stock; on that failure the store (hence any existing
row's quantity) is unchanged, and on success the cart holds exactly one
row for that product carrying the resulting quantity. -/
theorem add_cart_item_spec (s : State) (u productId : Nat) (qty : Int) (p : Product)
    (exq : Nat) (hpid : productId ≠ 0) (hq : 1 ≤ qty)
    (hp : s.findActiveProduct productId = some p)
    (hpair : s.cartItems.Pairwise
      (fun a b => ¬(a.cartId = b.cartId ∧ a.productId = b.productId)))
    (hexq : ((s.cartItems.find? (fun it => it.cartId == u && it.productId == productId)).map
        (fun it => it.qty)).getD 0 = exq) :
    ((addCartItem s u productId qty).1 = .badRequest "Not enough stock"
      ↔ p.stock < ((exq + qty.toNat : Nat) : Int)) ∧
    (p.stock < ((exq + qty.toNat : Nat) : Int) → (addCartItem s u productId qty).2 = s) ∧
    (((exq + qty.toNat : Nat) : Int) ≤ p.stock →
      (addCartItem s u productId qty).1 = .view ∧
      ((addCartItem s u productId qty).2.cartItems.filter
          (fun it => it.cartId == u && it.productId == productId)).map (fun it => it.qty)
        = [exq + qty.toNat]) := by
  have hpid' : (productId == 0) = false := by simpa using hpid
  have hq' : ¬ (qty < 1) := by omega
  have hqnat : ((qty.toNat : Int)) = qty := Int.toNat_of_nonneg (by omega)
  unfold addCartItem
  rw [hpid']
  simp only [Bool.false_eq_true, if_false, hq', hp]
  cases hfind : s.cartItems.find? (fun it => it.cartId == u && it.productId == productId) with
  | some item =>
    rw [hfind] at hexq
    have hexq' : item.qty = exq := by simpa using hexq
    subst hexq'
    by_cases h1 : p.stock < qty
    · rw [if_pos h1]
      refine ⟨iff_of_true rfl (by push_cast; omega), fun _ => rfl, fun habs => ?_⟩
      exfalso; push_cast at habs; omega
    · rw [if_neg h1]
      dsimp only
      by_cases h2 : p.stock < ((item.qty + qty.toNat : Nat) : Int)
      · rw [if_pos h2]
        refine ⟨iff_of_true rfl h2, fun _ => rfl, fun habs => ?_⟩
        exfalso; omega
      · rw [if_neg h2]
        refine ⟨iff_of_false (by simp) h2, fun habs => absurd habs h2, fun _ => ⟨rfl, ?_⟩⟩
        rw [writeItemQty_filter, cart_filter_unique s u productId item hpair hfind]
        simp
  | none =>
    rw [hfind] at hexq
    have hexq' : (0 : Nat) = exq := by simpa using hexq
    subst hexq'
    by_cases h1 : p.stock < qty
    · rw [if_pos h1]
      refine ⟨iff_of_true rfl (by push_cast; omega), fun _ => rfl, fun habs => ?_⟩
      exfalso; push_cast at habs; omega
    · have h2 : ¬ p.stock < ((qty.toNat : Nat) : Int) := by rw [hqnat]; exact h1
      rw [if_neg h1]
      dsimp only
      rw [if_neg h2]
      refine ⟨iff_of_false (by simp) (by push_cast; omega),
        fun habs => ?_, fun _ => ⟨rfl, ?_⟩⟩
      · exfalso; push_cast at habs; omega
      · rw [writeItemQty_filter]
        have hnil : s.cartItems.filter
            (fun it => it.cartId == u && it.productId == productId) = [] := by
          rw [List.filter_eq_nil_iff]
          intro a ha
          have := List.find?_eq_none.mp hfind a ha
          simpa using this
        simp [List.filter_append, hnil]

/-- Witness for C6: adding qty 2 then qty 3 of the same product to an
empty cart yields a single row with qty 5 (stock 5 suffices). -/
theorem add_cart_item_spec_witness :
    (addCartItem (addCartItem c6State 1 1 2).2 1 1 3).1 = .view ∧
    ((addCartItem (addCartItem c6State 1 1 2).2 1 1 3).2.cartItems.filter
        (fun it => it.cartId == 1 && it.productId == 1)).map (fun it => it.qty)
      = [5] := by
  have h := (add_cart_item_spec (addCartItem c6State 1 1 2).2 1 1 3 prodA 2
    (by decide) (by decide) (by decide) (by decide) (by decide)).2.2 (by decide)
  simpa using h

/-- A proof-status write preserves ids and order links; the status is
either untouched or the written one. -/
theorem writeProofStatus_mem (s : State) (q : Nat) (pS : ProofStatus)
    (pr : PaymentProof) (h : pr ∈ s.proofs) :
    ∃ pr' ∈ (s.writeProofStatus q pS).proofs,
      pr'.id = pr.id ∧ pr'.orderId = pr.orderId ∧
      (pr'.status = pr.status ∨ pr'.status = pS) := by
  refine ⟨_, List.mem_map_of_mem _ h, ?_⟩
  by_cases hc : (pr.id == q) = true <;> simp [hc]

/-- An order-status write preserves ids; the status is either untouched
or the written one. -/
theorem writeOrderStatus_mem (s : State) (oid : Nat) (oS : OrderStatus)
    (o : Order) (h : o ∈ s.orders) :
    ∃ o' ∈ (s.writeOrderStatus oid oS).orders,
      o'.id = o.id ∧ (o'.status = o.status ∨ o'.status = oS) := by
  refine ⟨_, List.mem_map_of_mem _ h, ?_⟩
  by_cases hc : (o.id == oid) = true <;> simp [hc]

/-- One proof-and-order status write pair preserves an already-achieved
decided-proof/cascaded-order fact, since every write of a batch writes
the same target statuses. -/
theorem writePair_keeps_pair (s : State) (q oid2 : Nat) (pS : ProofStatus) (oS : OrderStatus)
    (pid : Nat)
    (h : ∃ pr ∈ s.proofs, pr.id = pid ∧ pr.status = pS ∧
      ∃ o ∈ s.orders, o.id = pr.orderId ∧ o.status = oS) :
    ∃ pr ∈ ((s.writeProofStatus q pS).writeOrderStatus oid2 oS).proofs,
      pr.id = pid ∧ pr.status = pS ∧
      ∃ o ∈ ((s.writeProofStatus q pS).writeOrderStatus oid2 oS).orders,
        o.id = pr.orderId ∧ o.status = oS := by
  obtain ⟨pr, hmem, hid, hst, o, homem, hoid, host⟩ := h
  obtain ⟨pr', hmem', hid', hor', hst'⟩ := writeProofStatus_mem s q pS pr hmem
  obtain ⟨o', homem', hoid', host'⟩ :=
    writeOrderStatus_mem (s.writeProofStatus q pS) oid2 oS o homem
  refine ⟨pr', hmem', hid'.trans hid, ?_, o', homem', ?_, ?_⟩
  · rcases hst' with h' | h'
    · rw [h', hst]
    · exact h'
  · rw [hoid', hor', hoid]
  · rcases host' with h' | h'
    · rw [h', host]
    · exact h'

/-- One status write pair keeps every proof's order foreign key intact. -/
theorem writePair_keeps_fk (s : State) (q oid2 : Nat) (pS : ProofStatus) (oS : OrderStatus)
    (hfk : ∀ pr ∈ s.proofs, ∃ o ∈ s.orders, o.id = pr.orderId) :
    ∀ pr ∈ ((s.writeProofStatus q pS).writeOrderStatus oid2 oS).proofs,
      ∃ o ∈ ((s.writeProofStatus q pS).writeOrderStatus oid2 oS).orders,
        o.id = pr.orderId := by
  intro pr hmem
  simp only [State.writeProofStatus, State.writeOrderStatus, List.mem_map] at hmem
  obtain ⟨x, hx, hfx⟩ := hmem
  obtain ⟨o, ho, hoid⟩ := hfk x hx
  obtain ⟨o', ho'mem, ho'id, _⟩ :=
    writeOrderStatus_mem (s.writeProofStatus q pS) oid2 oS o ho
  refine ⟨o', ho'mem, ?_⟩
  rw [ho'id, hoid, ← hfx]
  by_cases hc : (x.id == q) = true <;> simp [hc]

/-- One status write pair keeps every proof id present. -/
theorem writePair_keeps_ids (s : State) (q oid2 : Nat) (pS : ProofStatus) (oS : OrderStatus)
    (i : Nat) (h : ∃ pr ∈ s.proofs, pr.id = i) :
    ∃ pr ∈ ((s.writeProofStatus q pS).writeOrderStatus oid2 oS).proofs, pr.id = i := by
  obtain ⟨pr, hmem, hid⟩ := h
  obtain ⟨pr', hmem', hid', _, _⟩ := writeProofStatus_mem s q pS pr hmem
  exact ⟨pr', hmem', hid'.trans hid⟩

/-- The remaining batch iterations cannot undo a decided
proof/cascaded order pair: all writes target the same statuses. -/
theorem verifyLoop_keeps_pair (ids : List Nat) :
    ∀ (s : State) (failO : List Nat) (pS : ProofStatus) (oS : OrderStatus) (k : Nat)
      (s' : State) (n : Nat) (pid : Nat),
    verifyLoop s ids failO pS oS k = some (s', n) →
    (∃ pr ∈ s.proofs, pr.id = pid ∧ pr.status = pS ∧
      ∃ o ∈ s.orders, o.id = pr.orderId ∧ o.status = oS) →
    ∃ pr ∈ s'.proofs, pr.id = pid ∧ pr.status = pS ∧
      ∃ o ∈ s'.orders, o.id = pr.orderId ∧ o.status = oS := by
  induction ids with
  | nil =>
    intro s failO pS oS k s' n pid h hp
    simp only [verifyLoop, Option.some.injEq, Prod.mk.injEq] at h
    rw [← h.1]; exact hp
  | cons q rest ih =>
    intro s failO pS oS k s' n pid h hp
    unfold verifyLoop at h
    cases hf : s.proofs.find? (fun x => x.id == q) with
    | none => rw [hf] at h; exact ih _ _ _ _ _ _ _ _ h hp
    | some pr0 =>
      rw [hf] at h
      rw [Option.ite_none_left_eq_some] at h
      exact ih _ _ _ _ _ _ _ _ h.2 (writePair_keeps_pair s q pr0.orderId pS oS pid hp)

/-- The verification loop either aborts (`none`) or processes the whole
batch: the count grows by exactly the batch size and every selected
proof ends with the target status and its order cascaded. -/
theorem verifyLoop_spec (ids : List Nat) :
    ∀ (s : State) (failO : List Nat) (pS : ProofStatus) (oS : OrderStatus) (k : Nat),
    (∀ pr ∈ s.proofs, ∃ o ∈ s.orders, o.id = pr.orderId) →
    (∀ i ∈ ids, ∃ pr ∈ s.proofs, pr.id = i) →
    verifyLoop s ids failO pS oS k = none ∨
    ∃ s', verifyLoop s ids failO pS oS k = some (s', k + ids.length) ∧
      ∀ i ∈ ids, ∃ pr ∈ s'.proofs, pr.id = i ∧ pr.status = pS ∧
        ∃ o ∈ s'.orders, o.id = pr.orderId ∧ o.status = oS := by
  induction ids with
  | nil =>
    intro s failO pS oS k hfk hids
    right
    exact ⟨s, by simp [verifyLoop], by simp⟩
  | cons q rest ih =>
    intro s failO pS oS k hfk hids
    obtain ⟨pr0, hpr0mem, hpr0id⟩ := hids q (by simp)
    have hfsome : (s.proofs.find? (fun x => x.id == q)).isSome := by
      rw [List.find?_isSome]
      exact ⟨pr0, hpr0mem, by simp [hpr0id]⟩
    obtain ⟨pr1, hf⟩ := Option.isSome_iff_exists.mp hfsome
    have hpr1id : pr1.id = q := by simpa using List.find?_some hf
    have hpr1mem := List.mem_of_find?_eq_some hf
    unfold verifyLoop
    rw [hf]
    dsimp only
    by_cases hc : failO.contains pr1.orderId = true
    · left; rw [if_pos hc]
    · rw [if_neg hc]
      have hfk2 := writePair_keeps_fk s q pr1.orderId pS oS hfk
      have hids2 : ∀ i ∈ rest,
          ∃ pr ∈ ((s.writeProofStatus q pS).writeOrderStatus pr1.orderId oS).proofs,
            pr.id = i :=
        fun i hi => writePair_keeps_ids s q pr1.orderId pS oS i (hids i (by simp [hi]))
      rcases ih _ failO pS oS (k + 1) hfk2 hids2 with hnone | ⟨s', heq, hpost⟩
      · left; exact hnone
      · right
        refine ⟨s', ?_, ?_⟩
        · have harith : k + 1 + rest.length = k + (rest.length + 1) := by omega
          rw [heq, List.length_cons, harith]
        · intro i hi
          rcases List.mem_cons.mp hi with rfl | hi'
          · apply verifyLoop_keeps_pair rest _ failO pS oS (k + 1) s' _ i heq
            have hm1 : ({ pr1 with status := pS } : PaymentProof)
                ∈ (s.writeProofStatus i pS).proofs := by
              have := List.mem_map_of_mem
                (fun x => if x.id == i then { x with status := pS } else x) hpr1mem
              simpa [State.writeProofStatus, hpr1id] using this
            obtain ⟨o, homem, hoid⟩ := hfk pr1 hpr1mem
            have hm2 : ({ o with status := oS } : Order)
                ∈ ((s.writeProofStatus i pS).writeOrderStatus pr1.orderId oS).orders := by
              have := List.mem_map_of_mem
                (fun x => if x.id == pr1.orderId then { x with status := oS } else x) homem
              simpa [State.writeOrderStatus, hoid] using this
            exact ⟨{ pr1 with status := pS }, hm1, hpr1id, rfl,
              { o with status := oS }, hm2, hoid, rfl⟩
          · exact hpost i hi'

/-- C7: a verification batch is all-or-nothing: either the operation
fails with the store rolled back unchanged, or it reports the full
batch size and every selected proof carries the decision's status with
its order cascaded (`APPROVED`/`PAID` or `REJECTED`/`REJECTED`). -/
theorem verify_batch_atomic (d : Decision) (s : State) (ids failO : List Nat)
    (hfk : ∀ pr ∈ s.proofs, ∃ o ∈ s.orders, o.id = pr.orderId)
    (hids : ∀ i ∈ ids, ∃ pr ∈ s.proofs, pr.id = i) :
    ((verify_proofs d s ids failO).1 = .storeError ∧ (verify_proofs d s ids failO).2 = s) ∨
    ((verify_proofs d s ids failO).1 = .done ids.length ∧
      ∀ i ∈ ids, ∃ pr ∈ (verify_proofs d s ids failO).2.proofs,
        pr.id = i ∧ pr.status = d.proofTarget ∧
        ∃ o ∈ (verify_proofs d s ids failO).2.orders,
          o.id = pr.orderId ∧ o.status = d.orderTarget) := by
  have hloop := verifyLoop_spec ids s failO d.proofTarget d.orderTarget 0 hfk hids
  cases d with
  | approve =>
    simp only [Decision.proofTarget, Decision.orderTarget] at hloop ⊢
    simp only [verify_proofs, approve_proof]
    rcases hloop with hnone | ⟨s', heq, hpost⟩
    · rw [hnone]; left; exact ⟨rfl, rfl⟩
    · rw [heq]; right
      refine ⟨by simp, ?_⟩
      simpa using hpost
  | reject =>
    simp only [Decision.proofTarget, Decision.orderTarget] at hloop ⊢
    simp only [verify_proofs, reject_proof]
    rcases hloop with hnone | ⟨s', heq, hpost⟩
    · rw [hnone]; left; exact ⟨rfl, rfl⟩
    · rw [heq]; right
      refine ⟨by simp, ?_⟩
      simpa using hpost

/-- Witness for C7: approving the two pending proofs of `c7State`. -/
theorem verify_batch_atomic_witness :
    ((verify_proofs .approve c7State [1, 2] []).1 = .storeError ∧
      (verify_proofs .approve c7State [1, 2] []).2 = c7State) ∨
    ((verify_proofs .approve c7State [1, 2] []).1 = .done ([1, 2] : List Nat).length ∧
      ∀ i ∈ ([1, 2] : List Nat),
        ∃ pr ∈ (verify_proofs .approve c7State [1, 2] []).2.proofs,
          pr.id = i ∧ pr.status = Decision.approve.proofTarget ∧
          ∃ o ∈ (verify_proofs .approve c7State [1, 2] []).2.orders,
            o.id = pr.orderId ∧ o.status = Decision.approve.orderTarget) :=
  verify_batch_atomic .approve c7State [1, 2] [] (by decide) (by decide)

/-- Generic transport of `find?` through a `map` whose function
preserves the predicate and the observed view. -/
theorem find?_map_of_preserve {α β : Type} (f : α → α) (g : α → β) (p : α → Bool)
    (l : List α) (hpres : ∀ a, p (f a) = p a)
    (hview : ∀ a, p a = true → g (f a) = g a) :
    ((l.map f).find? p).map g = (l.find? p).map g := by
  induction l with
  | nil => rfl
  | cons a t ih =>
    simp only [List.map_cons]
    by_cases hc : p a = true
    · rw [List.find?_cons_of_pos _ (by rw [hpres]; exact hc),
        List.find?_cons_of_pos _ hc]
      simp [hview a hc]
    · rw [List.find?_cons_of_neg _ (by rw [hpres]; exact hc),
        List.find?_cons_of_neg _ hc]
      exact ih

/-- A stock write does not change any product's catalog view (id, name,
price, discount, active flag). -/
theorem writeStock_findProduct (s : State) (pid : Nat) (v : Int) (q : Nat) :
    ((s.writeStock pid v).findProduct q).map catalogView
      = (s.findProduct q).map catalogView := by
  simp only [State.writeStock, State.findProduct]
  apply find?_map_of_preserve
  · intro a
    by_cases hc : (a.id == pid) = true <;> simp [hc]
  · intro a _
    by_cases hc : (a.id == pid) = true <;> simp [catalogView, hc]

/-- Equal catalog views give equal final prices and names. -/
theorem productOf_of_catalog_eq (s1 s2 : State) (q : Nat)
    (h : (s1.findProduct q).map catalogView = (s2.findProduct q).map catalogView) :
    (s1.productOf q).final_price = (s2.productOf q).final_price ∧
    (s1.productOf q).name = (s2.productOf q).name := by
  unfold State.productOf
  cases h1 : s1.findProduct q with
  | none =>
    cases h2 : s2.findProduct q with
    | none => exact ⟨rfl, rfl⟩
    | some p2 => rw [h1, h2] at h; exact Option.noConfusion h
  | some p1 =>
    cases h2 : s2.findProduct q with
    | none => rw [h1, h2] at h; exact Option.noConfusion h
    | some p2 =>
      rw [h1, h2] at h
      simp only [Option.map_some', Option.some.injEq, catalogView, Prod.mk.injEq] at h
      obtain ⟨hid, hname, hprice, hdisc, hact⟩ := h
      refine ⟨?_, by simpa using hname⟩
      simp [Product.final_price, hprice, hdisc]

/-- The checkout item loop only writes stock, so every product's
catalog view is unchanged. -/
theorem processItems_catalog (items : List CartItem) (s : State) (oid : Nat) (acc : ℚ)
    (q : Nat) :
    ((processItems s oid items acc).1.findProduct q).map catalogView
      = (s.findProduct q).map catalogView := by
  induction items generalizing s acc with
  | nil => rfl
  | cons it rest ih =>
    simp only [processItems]
    rw [ih]
    exact writeStock_findProduct _ _ _ _

/-- The checkout item loop appends exactly one snapshot per line: each
new order item carries the target order id and the product's
`final_price` at loop entry, and the accumulated total is exactly the
sum of `unit_price × qty` over the new items. -/
theorem processItems_spec (items : List CartItem) (s : State) (oid : Nat) (acc : ℚ) :
    ∃ new : List OrderItem,
      (processItems s oid items acc).1.orderItems = s.orderItems ++ new ∧
      (∀ oi ∈ new, oi.orderId = oid ∧
        oi.unit_price = (s.productOf oi.productId).final_price ∧
        ∃ it ∈ items, it.productId = oi.productId) ∧
      (processItems s oid items acc).2
        = acc + (new.map (fun oi => oi.unit_price * (oi.qty : ℚ))).sum := by
  induction items generalizing s acc with
  | nil => exact ⟨[], by simp [processItems], by simp, by simp [processItems]⟩
  | cons it rest ih =>
    simp only [processItems]
    obtain ⟨new, hitems, hprops, htot⟩ := ih _ _
    refine ⟨⟨s.nextOrderItemId, oid, it.productId, (s.productOf it.productId).name,
      (s.productOf it.productId).final_price, it.qty⟩ :: new, ?_, ?_, ?_⟩
    · rw [hitems]
      simp [State.writeStock]
    · intro oi hoi
      rcases List.mem_cons.mp hoi with rfl | hoi'
      · exact ⟨rfl, rfl, it, List.mem_cons_self it rest, rfl⟩
      · obtain ⟨h1, h2, it', hit', h3⟩ := hprops oi hoi'
        refine ⟨h1, ?_, it', List.mem_cons_of_mem _ hit', h3⟩
        rw [h2]
        have hcat : ((( { s with
              orderItems := s.orderItems ++ [⟨s.nextOrderItemId, oid, it.productId,
                (s.productOf it.productId).name,
                (s.productOf it.productId).final_price, it.qty⟩],
              nextOrderItemId := s.nextOrderItemId + 1 } : State).writeStock
                (s.productOf it.productId).id
                (max 0 ((s.productOf it.productId).stock - (it.qty : Int)))).findProduct
                  oi.productId).map catalogView
            = (s.findProduct oi.productId).map catalogView :=
          writeStock_findProduct _ _ _ _
        exact (productOf_of_catalog_eq _ _ _ hcat).1
    · rw [htot]
      simp only [List.map_cons, List.sum_cons]
      ring

/-- Writing the total finds the freshly created order: all pre-existing
orders have smaller ids. -/
theorem find_order_in_commit (olds : List Order) (order : Order) (oid : Nat) (t : ℚ)
    (hold : ∀ o ∈ olds, o.id ≠ oid) (hnew : order.id = oid) :
    ((olds ++ [order]).map (fun o => if o.id == oid then { o with total := t } else o)).find?
      (fun o => o.id == oid) = some { order with total := t } := by
  rw [List.map_append, List.find?_append]
  have h1 : ((olds.map (fun o => if o.id == oid then { o with total := t } else o)).find?
      (fun o => o.id == oid)) = none := by
    rw [List.find?_eq_none]
    intro x hx
    simp only [List.mem_map] at hx
    obtain ⟨o, ho, hfo⟩ := hx
    have hne := hold o ho
    have hfalse : (o.id == oid) = false := by simpa using hne
    rw [← hfo]
    simp [hfalse, hne]
  rw [h1, Option.none_or]
  simp [hnew]

/-- Inversion: a `created` response means the committing branch ran
with some generated code. -/
theorem checkout_created_inv (s : State) (u : Nat) (ph ad nt : String)
    (draws : List String) (now : Nat) (oid : Nat)
    (hok : (checkout s u ph ad nt draws now).1 = .created oid) :
    oid = s.nextOrderId ∧
    ∃ code, (checkout s u ph ad nt draws now).2 = checkoutCommit s u ph ad nt code now := by
  by_cases he : (s.itemsOfCart u).isEmpty
  · unfold checkout at hok; simp [he] at hok
  · cases hfs : firstShortItem s (s.itemsOfCart u) with
    | some it =>
      unfold checkout at hok; simp [he, hfs] at hok
    | none =>
      cases hg : gen_code "KH" (s.orders.map (fun o => o.order_code)) draws with
      | none =>
        unfold checkout at hok; simp [he, hfs, hg] at hok
      | some code =>
        unfold checkout at hok
        simp only [he, hfs, hg, Bool.false_eq_true, if_false] at hok
        refine ⟨?_, code, ?_⟩
        · simpa using hok.symm
        · unfold checkout
          simp [he, hfs, hg]

/-- When a product with the given id exists, `productOf` returns a row
of the table with that id. -/
theorem productOf_mem (s : State) (pid : Nat) (h : ∃ p ∈ s.products, p.id = pid) :
    s.productOf pid ∈ s.products ∧ (s.productOf pid).id = pid := by
  obtain ⟨p0, hp0, hid⟩ := h
  have hsome : (s.products.find? (fun p => p.id == pid)).isSome := by
    rw [List.find?_isSome]; exact ⟨p0, hp0, by simp [hid]⟩
  obtain ⟨pf, hf⟩ := Option.isSome_iff_exists.mp hsome
  have hpf : s.productOf pid = pf := by
    simp [State.productOf, State.findProduct, hf]
  rw [hpf]
  exact ⟨List.mem_of_find?_eq_some hf, by simpa using List.find?_some hf⟩

/-- The committed checkout state satisfies the exact-total equation and
snapshots every item at the pre-state's final price. -/
theorem checkoutCommit_spec (s : State) (u : Nat) (ph ad nt code : String) (now : Nat)
    (hwf : WF s) :
    orderTotal (checkoutCommit s u ph ad nt code now) s.nextOrderId
      = some (orderItemSum (checkoutCommit s u ph ad nt code now) s.nextOrderId) ∧
    ∀ oi ∈ (checkoutCommit s u ph ad nt code now).orderItems,
      oi.orderId = s.nextOrderId →
      ∃ p ∈ s.products, p.id = oi.productId ∧ oi.unit_price = p.final_price := by
  obtain ⟨hw1, hw2, hw3, hw4, hw5, hw6⟩ := hwf
  unfold checkoutCommit
  dsimp only
  obtain ⟨new, hitems, hprops, htot⟩ := processItems_spec (s.itemsOfCart u)
    { s with
      orders := s.orders ++
        [⟨s.nextOrderId, u, ph.trim, ad.trim, nt.trim, 0, code, .PENDING_PAYMENT, now⟩]
      nextOrderId := s.nextOrderId + 1 } s.nextOrderId 0
  have hord := (processItems_frame (s.itemsOfCart u)
    { s with
      orders := s.orders ++
        [⟨s.nextOrderId, u, ph.trim, ad.trim, nt.trim, 0, code, .PENDING_PAYMENT, now⟩]
      nextOrderId := s.nextOrderId + 1 } s.nextOrderId 0).2.1
  constructor
  · unfold orderTotal orderItemSum
    simp only [State.writeOrderTotal]
    rw [hord, hitems]
    rw [find_order_in_commit s.orders _ s.nextOrderId _
      (fun o ho => by have := hw6 o ho; omega) rfl]
    simp only [Option.map_some']
    congr 1
    rw [List.filter_append]
    have hfold : s.orderItems.filter (fun oi => oi.orderId == s.nextOrderId) = [] := by
      rw [List.filter_eq_nil_iff]
      intro oi hoi
      have := hw5 oi hoi
      simp only [beq_iff_eq]
      omega
    have hfnew : new.filter (fun oi => oi.orderId == s.nextOrderId) = new := by
      rw [List.filter_eq_self]
      intro oi hoi
      simp [(hprops oi hoi).1]
    rw [hfold, hfnew, List.nil_append, htot]
    ring
  · intro oi hoi hid
    simp only [State.writeOrderTotal] at hoi
    rw [hitems] at hoi
    rcases List.mem_append.mp hoi with hold | hnew
    · have := hw5 oi hold
      omega
    · obtain ⟨_, hup, it, hit, hpid⟩ := hprops oi hnew
      have hitc : it ∈ s.cartItems := (List.mem_filter.mp hit).1
      have hex : ∃ p ∈ s.products, p.id = oi.productId := by
        obtain ⟨p0, hp0, hp0id⟩ := hw2 it hitc
        exact ⟨p0, hp0, by rw [hp0id, hpid]⟩
      obtain ⟨hmem, hidp⟩ := productOf_mem s oi.productId hex
      exact ⟨s.productOf oi.productId, hmem, hidp, hup⟩

/-- C1: for every successful checkout the stored total equals exactly
the sum of `unit_price × qty` over the created order's items, computed
in exact (rational) arithmetic with no rounding, and each item's
`unit_price` is the referenced product's final discounted price at
checkout time. -/
theorem checkout_total_is_exact_item_sum (s : State) (u : Nat) (ph ad nt : String)
    (draws : List String) (now oid : Nat) (hwf : WF s)
    (hok : (checkout s u ph ad nt draws now).1 = .created oid) :
    orderTotal (checkout s u ph ad nt draws now).2 oid
      = some (orderItemSum (checkout s u ph ad nt draws now).2 oid) ∧
    ∀ oi ∈ (checkout s u ph ad nt draws now).2.orderItems, oi.orderId = oid →
      ∃ p ∈ s.products, p.id = oi.productId ∧ oi.unit_price = p.final_price := by
  obtain ⟨hoid, code, hcc⟩ := checkout_created_inv s u ph ad nt draws now oid hok
  subst hoid
  rw [hcc]
  exact checkoutCommit_spec s u ph ad nt code now hwf

/-- Witness for C1 at the two-line store `c5State`. -/
theorem checkout_total_is_exact_item_sum_witness :
    orderTotal c5Run.2 1 = some (orderItemSum c5Run.2 1) ∧
    ∀ oi ∈ c5Run.2.orderItems, oi.orderId = 1 →
      ∃ p ∈ c5State.products, p.id = oi.productId ∧ oi.unit_price = p.final_price :=
  checkout_total_is_exact_item_sum c5State 7 "012" "addr" ""
    ["ABCDEFGH12", "ZZZZZZZZ00"] 5 1 (by unfold WF; decide) (by decide)
